import Mathlib

/-!
Shallow embedding of the model-capability synchronization pipeline of the
ai-chatbot repository: the static capability mapping
(`lib/scrapers/model-capabilities.ts`), the apply (POST) and preview (GET)
sync routes, and the best-effort scraper (`lib/scrapers/vercel-models.ts`).

JavaScript numbers carried by the pipeline (the pricing values) are modeled
as rationals; `null`/absent is `Option.none`.  External boundaries — the
durable model store and the bulk-write operation — are passed in as explicit
arguments, following the repository's own interface
(`getEnabledModels`, `bulkUpdateModelCapabilities`).
-/

set_option maxRecDepth 8000

namespace ModelSync

/-- Capability pricing for one model: price per image generation and price per
web search.  `none` is the TypeScript `null`, meaning the capability is not
supported or unknown; it is distinct from a zero price.  Mirrors the
`ModelCapabilities` interface of the static mapping module. -/
structure ModelCapabilities where
  pricingImageGen : Option ℚ
  pricingWebSearch : Option ℚ
  deriving Repr, DecidableEq

/-- The hand-curated static mapping `MODEL_CAPABILITIES`, with its key
insertion order preserved (JavaScript objects iterate string keys in
insertion order).  Prices transcribed from the source literal. -/
def MODEL_CAPABILITIES : List (String × ModelCapabilities) :=
  [ ("openai/gpt-5", ⟨some (2/100), some (25/1000)⟩),
    ("openai/gpt-5-chat", ⟨some (2/100), some (25/1000)⟩),
    ("openai/gpt-5-mini", ⟨some (2/100), some (25/1000)⟩),
    ("openai/gpt-5.2", ⟨some (2/100), some (25/1000)⟩),
    ("openai/gpt-4o", ⟨some (2/100), none⟩),
    ("openai/gpt-4o-mini", ⟨some (2/100), none⟩),
    ("google/gemini-2.5-flash", ⟨some (2/100), none⟩),
    ("google/gemini-2.5-flash-lite", ⟨some (2/100), none⟩),
    ("google/gemini-2.5-pro", ⟨some (2/100), none⟩),
    ("google/gemini-3-flash", ⟨some (2/100), none⟩),
    ("google/gemini-3-pro-preview", ⟨some (2/100), none⟩),
    ("google/gemini-3-pro-image", ⟨some (2/100), none⟩),
    ("xai/grok-3", ⟨none, some (5/100)⟩),
    ("xai/grok-3-fast", ⟨none, some (5/100)⟩),
    ("xai/grok-3-mini", ⟨none, some (5/100)⟩),
    ("xai/grok-4", ⟨none, some (5/100)⟩),
    ("perplexity/sonar", ⟨none, some (5/1000)⟩),
    ("perplexity/sonar-pro", ⟨none, some (5/1000)⟩),
    ("perplexity/sonar-reasoning", ⟨none, some (5/1000)⟩),
    ("perplexity/sonar-reasoning-pro", ⟨none, some (5/1000)⟩) ]

/-- `getModelCapabilities`: exact-key lookup in the static mapping, falling
back to the all-absent default record when the model id has no entry. -/
def getModelCapabilities (modelId : String) : ModelCapabilities :=
  match MODEL_CAPABILITIES.lookup modelId with
  | some caps => caps
  | none => ⟨none, none⟩

/-- `getModelsWithCapability`: ids of mapping entries whose pricing for the
requested capability is non-null, in mapping iteration order. -/
def getModelsWithCapability (capability : Bool) : List String :=
  ((MODEL_CAPABILITIES.filter fun e =>
      if capability then e.2.pricingImageGen.isSome else e.2.pricingWebSearch.isSome).map
    fun e => e.1)

/-- JavaScript strict inequality `a !== b` on `number | null` values: `null`
differs from every number, and two numbers differ exactly when they are not
the same rational.  (The mapping never contains `NaN`, so the `NaN !== NaN`
corner of JavaScript does not arise.) -/
def jsStrictNeq : Option ℚ → Option ℚ → Bool
  | none, none => false
  | none, some _ => true
  | some _, none => true
  | some a, some b => a != b

/-- One row of the `Model` table as the sync routes read it: only the id and
the two capability pricing columns are consulted by the reconciliation. -/
structure DbModel where
  id : String
  pricingImageGen : Option ℚ
  pricingWebSearch : Option ℚ
  deriving Repr, DecidableEq

/-- The per-model change test shared by both routes:
`existingModel.pricingImageGen !== capabilities.pricingImageGen ||
 existingModel.pricingWebSearch !== capabilities.pricingWebSearch`. -/
def capabilitiesChanged (m : DbModel) : Bool :=
  let caps := getModelCapabilities m.id
  jsStrictNeq m.pricingImageGen caps.pricingImageGen ||
    jsStrictNeq m.pricingWebSearch caps.pricingWebSearch

/-- One record submitted to `bulkUpdateModelCapabilities`. -/
structure CapabilityUpdate where
  id : String
  pricingImageGen : Option ℚ
  pricingWebSearch : Option ℚ
  deriving Repr, DecidableEq

/-- Result shape of the store's `bulkUpdateModelCapabilities` boundary
operation, with per-record success reporting. -/
structure BulkResult where
  total : Nat
  successful : Nat
  failed : Nat
  errors : List String
  deriving Repr, DecidableEq

/-- The POST route's matching loop: walks `existingModels` in order and
accumulates the `updates`, `unchanged` and `notInMapping` arrays exactly as
the loop pushes them.  Returned as (updates, unchanged ids, notInMapping
ids), each in input order. -/
def syncScan : List DbModel → List CapabilityUpdate × List String × List String
  | [] => ([], [], [])
  | m :: rest =>
    let caps := getModelCapabilities m.id
    let prev := syncScan rest
    let notin :=
      if (MODEL_CAPABILITIES.lookup m.id).isSome then prev.2.2 else m.id :: prev.2.2
    if capabilitiesChanged m then
      (⟨m.id, caps.pricingImageGen, caps.pricingWebSearch⟩ :: prev.1, prev.2.1, notin)
    else
      (prev.1, m.id :: prev.2.1, notin)

/-- Summary block of the apply (POST) report. -/
structure ApplySummary where
  totalModels : Nat
  inMapping : Nat
  updated : Nat
  unchanged : Nat
  notInMapping : Nat
  failed : Nat
  deriving Repr, DecidableEq

/-- Details block of the apply (POST) report. -/
structure ApplyDetails where
  updated : List CapabilityUpdate
  notInMapping : List String
  errors : List String
  deriving Repr, DecidableEq

/-- The apply (POST) report returned as JSON on success. -/
structure ApplyReport where
  success : Bool
  source : String
  summary : ApplySummary
  details : ApplyDetails
  deriving Repr, DecidableEq

/-- The POST (apply) route after authentication: reconcile `models` against
the static mapping, call `bulkWrite` once when the `updates` array is
non-empty and otherwise substitute the zero result without calling it, then
build the report.  The second component counts how many times the bulk-write
boundary was invoked (0 or 1). -/
def runApply (models : List DbModel) (bulkWrite : List CapabilityUpdate → BulkResult) :
    ApplyReport × Nat :=
  let scan := syncScan models
  let updates := scan.1
  let unchanged := scan.2.1
  let notInMapping := scan.2.2
  let step : BulkResult × Nat :=
    if updates.length > 0 then (bulkWrite updates, 1) else (⟨0, 0, 0, []⟩, 0)
  let updateResult := step.1
  (⟨true, "static-mapping",
    ⟨models.length, MODEL_CAPABILITIES.length, updateResult.successful,
      unchanged.length, notInMapping.length, updateResult.failed⟩,
    ⟨updates, notInMapping.take 20, updateResult.errors⟩⟩,
   step.2)

/-- The durable-store state after an apply run in which every submitted
record was written: each changed model's two pricing columns now hold the
desired values from the static mapping, and unchanged rows are untouched.
This is the premise of the idempotence property, whose second run starts
from a store holding exactly the values the first run wrote. -/
def applyStoreEffect (models : List DbModel) : List DbModel :=
  models.map fun m =>
    let caps := getModelCapabilities m.id
    if capabilitiesChanged m then ⟨m.id, caps.pricingImageGen, caps.pricingWebSearch⟩
    else m

/-- One entry of the GET route's `preview` array. -/
structure PreviewEntry where
  id : String
  current : ModelCapabilities
  new : ModelCapabilities
  willUpdate : Bool
  inMapping : Bool
  deriving Repr, DecidableEq

/-- Summary block of the preview (GET) report. -/
structure PreviewSummary where
  total : Nat
  willUpdate : Nat
  unchanged : Nat
  inMapping : Nat
  notInMapping : Nat
  deriving Repr, DecidableEq

/-- The preview (GET) report returned as JSON on success. -/
structure PreviewReport where
  success : Bool
  source : String
  mappingVersion : String
  preview : List PreviewEntry
  summary : PreviewSummary
  deriving Repr, DecidableEq

/-- The GET route's loop body: the preview entry pushed for one existing
model.  `inMapping` is the truthiness of the mapping entry, which for an
object value is exactly key presence. -/
def mkPreviewEntry (m : DbModel) : PreviewEntry :=
  let caps := getModelCapabilities m.id
  ⟨m.id, ⟨m.pricingImageGen, m.pricingWebSearch⟩, caps, capabilitiesChanged m,
    (MODEL_CAPABILITIES.lookup m.id).isSome⟩

/-- The GET route's `preview` array: one entry per existing model, in input
order. -/
def previewList (models : List DbModel) : List PreviewEntry :=
  models.map mkPreviewEntry

/-- The GET (preview) route after authentication: build the preview array and
its summary; no write boundary is ever touched. -/
def previewRun (models : List DbModel) : PreviewReport :=
  let p := previewList models
  ⟨true, "static-mapping", "2026-01-05", p,
    ⟨p.length,
      (p.filter fun e => e.willUpdate).length,
      (p.filter fun e => !e.willUpdate).length,
      (p.filter fun e => e.inMapping).length,
      (p.filter fun e => !e.inMapping).length⟩⟩

/-- A JavaScript value, as the untyped inputs of the scraper's parsing layer
are: numbers are rationals (`NaN` and the infinities never reach these code
paths from the pricing data modeled here). -/
inductive JSValue where
  | null
  | undefined
  | num (q : ℚ)
  | str (s : String)
  | bool (b : Bool)
  | arr (elems : List JSValue)
  | obj (fields : List (String × JSValue))
  deriving Repr

/-- JavaScript property access `v.k` (or `v?.k` on a non-nullish `v`): a
lookup on objects, `undefined` on everything else. -/
def JSValue.getField : JSValue → String → JSValue
  | .obj fields, k =>
    match fields.lookup k with
    | some v => v
    | none => .undefined
  | _, _ => .undefined

/-- JavaScript nullish test (`??` triggers its fallback exactly here). -/
def JSValue.isNullish : JSValue → Bool
  | .null => true
  | .undefined => true
  | _ => false

/-- JavaScript falsy test, as used by `if (!props)` and `if (!modelData.id)`:
`null`, `undefined`, `0`, the empty string and `false` are falsy. -/
def JSValue.isFalsy : JSValue → Bool
  | .null => true
  | .undefined => true
  | .num q => q == 0
  | .str s => s == ""
  | .bool b => !b
  | _ => false

/-- Nullish coalescing `a ?? b`. -/
def jsCoalesce (a b : JSValue) : JSValue :=
  if a.isNullish then b else a

/-- Whitespace as the character classes of the regexes involved here match it
(the pricing strings only ever carry ASCII whitespace). -/
def isJsWhitespace (c : Char) : Bool :=
  c == ' ' || c == '\t' || c == '\n' || c == '\r' || c == '\x0b' || c == '\x0c'

/-- Longest digit run at the head of the character list, with the rest. -/
def takeDigits : List Char → List Char × List Char
  | [] => ([], [])
  | c :: cs =>
    if c.isDigit then
      let tail := takeDigits cs
      (c :: tail.1, tail.2)
    else ([], c :: cs)

/-- Numeric value of a digit run. -/
def digitsToNat (ds : List Char) : ℕ :=
  ds.foldl (fun a c => a * 10 + (c.toNat - 48)) 0

/-- Decimal mantissa of JavaScript `parseFloat`: digits with an optional
fraction, or a bare fraction; `none` when no digit can be read (`NaN`). -/
def parseDecimal (s : List Char) : Option (ℚ × List Char) :=
  let intPart := takeDigits s
  if intPart.1.isEmpty then
    match intPart.2 with
    | '.' :: r =>
      let frac := takeDigits r
      if frac.1.isEmpty then none
      else some ((digitsToNat frac.1 : ℚ) / (10 ^ frac.1.length : ℚ), frac.2)
    | _ => none
  else
    match intPart.2 with
    | '.' :: r =>
      let frac := takeDigits r
      some ((digitsToNat intPart.1 : ℚ) + (digitsToNat frac.1 : ℚ) / (10 ^ frac.1.length : ℚ),
        frac.2)
    | _ => some ((digitsToNat intPart.1 : ℚ), intPart.2)

/-- Optional exponent suffix of `parseFloat`; a malformed exponent is ignored
because `parseFloat` stops at the longest valid numeric prefix. -/
def applyExponent (q : ℚ) : List Char → ℚ
  | c :: r =>
    if c == 'e' || c == 'E' then
      let signed : Bool × List Char :=
        match r with
        | '-' :: r2 => (true, r2)
        | '+' :: r2 => (false, r2)
        | _ => (false, r)
      let es := takeDigits signed.2
      if es.1.isEmpty then q
      else if signed.1 then q / (10 ^ digitsToNat es.1 : ℚ)
      else q * (10 ^ digitsToNat es.1 : ℚ)
    else q
  | [] => q

/-- JavaScript `parseFloat` on the strings this pipeline feeds it: skip
leading whitespace, optional sign, longest decimal prefix, optional
exponent; `none` models the `NaN` outcome.  (The `Infinity` literal is not
representable in ℚ and never occurs in the pricing data.) -/
def parseFloatJS (s : String) : Option ℚ :=
  let t := s.data.dropWhile isJsWhitespace
  let signed : Bool × List Char :=
    match t with
    | '-' :: r => (true, r)
    | '+' :: r => (false, r)
    | _ => (false, t)
  match parseDecimal signed.2 with
  | none => none
  | some qr =>
    let v := applyExponent qr.1 qr.2
    some (if signed.1 then -v else v)

/-- The character strip of `value.replace` removing dollar signs, commas and
whitespace before parsing. -/
def stripCurrency (s : String) : String :=
  String.mk (s.data.filter fun c => !(c == '$' || c == ',' || isJsWhitespace c))

/-- `parsePricing`: `null`/`undefined` map to absent, numbers pass through
unchanged, strings are stripped of currency characters and parsed with
`parseFloat` (a `NaN` result becomes absent), every other type is absent. -/
def parsePricing : JSValue → Option ℚ
  | .null => none
  | .undefined => none
  | .num q => some q
  | .str s => parseFloatJS (stripCurrency s)
  | _ => none

/-- Case-insensitive anchored match: when `pat` matches a head of `s` (by
`Char.toLower` comparison), return the rest of `s`. -/
def matchAtCI : List Char → List Char → Option (List Char)
  | [], s => some s
  | _, [] => none
  | p :: ps, c :: cs => if p.toLower == c.toLower then matchAtCI ps cs else none

/-- Case-insensitive substring test (regex `.test` of a literal word). -/
def containsCI (s pat : String) : Bool :=
  go s.data
where
  go : List Char → Bool
    | [] => (matchAtCI pat.data []).isSome
    | c :: cs => (matchAtCI pat.data (c :: cs)).isSome || go cs

/-- After the first word of a capability label, the separator the regex
alternation admits before the second word: nothing, a single hyphen, or one
or more whitespace characters. -/
def sepThenWordCI (word : List Char) (rest : List Char) : Bool :=
  (matchAtCI word rest).isSome ||
    (match rest with
     | '-' :: r => (matchAtCI word r).isSome
     | _ => false) ||
    wsThenWord rest
where
  wsThenWord : List Char → Bool
    | c :: cs =>
      if isJsWhitespace c then (matchAtCI word cs).isSome || wsThenWord cs
      else false
    | [] => false

/-- Case-insensitive test for the two-word capability label regexes
(first word, separator as above, second word) anywhere in the row. -/
def hasCapabilityKeyword (w1 w2 : String) (s : String) : Bool :=
  go s.data
where
  go : List Char → Bool
    | [] => false
    | c :: cs =>
      (match matchAtCI w1.data (c :: cs) with
       | some rest => sepThenWordCI w2.data rest
       | none => false) || go cs

/-- The negation-marker test of the row regexes: an em-dash, or the letters
of "none" or "no" anywhere in the row, case-insensitively. -/
def containsNegation (rowHtml : String) : Bool :=
  containsCI rowHtml "—" || containsCI rowHtml "none" || containsCI rowHtml "no"

/-- First price capture in a row: scan for a dollar sign followed by at least
one digit; the capture is those digits with an optional dot and further
digits, exactly the capture group of the price regex. -/
def findPriceCapture : List Char → Option (List Char)
  | [] => none
  | '$' :: cs =>
    let ds := takeDigits cs
    if ds.1.isEmpty then findPriceCapture cs
    else
      some (ds.1 ++
        match ds.2 with
        | '.' :: r => '.' :: (takeDigits r).1
        | _ => [])
  | _ :: cs => findPriceCapture cs

/-- `extractPricingFromRow`: the first currency-formatted number anywhere in
the row, parsed as a float.  The capability argument is accepted and ignored,
as in the source — the regex does not use it. -/
def extractPricingFromRow (rowHtml : String) (capability : String) : Option ℚ :=
  let _ := capability
  match findPriceCapture rowHtml.data with
  | some capture => parseFloatJS (String.mk capture)
  | none => none

/-- `inferModelId`: first provider whose keyword pattern occurs in the row
(fixed priority order), else a well-known slug prefix, else no id.  The
source's `slug.replace` of hyphens by hyphens is the identity and is
omitted. -/
def inferModelId (slug : String) (rowHtml : String) : Option String :=
  let providerPatterns : List (List String × String) :=
    [ (["openai", "gpt"], "openai"),
      (["anthropic", "claude"], "anthropic"),
      (["google", "gemini"], "google"),
      (["xai", "grok"], "xai"),
      (["meta", "llama"], "meta"),
      (["mistral"], "mistral"),
      (["deepseek"], "deepseek") ]
  match providerPatterns.find? (fun p => p.1.any fun w => containsCI rowHtml w) with
  | some p => some (p.2 ++ "/" ++ slug)
  | none =>
    if slug.startsWith "gpt-" then some ("openai/" ++ slug)
    else if slug.startsWith "claude-" then some ("anthropic/" ++ slug)
    else if slug.startsWith "gemini-" then some ("google/" ++ slug)
    else if slug.startsWith "grok-" then some ("xai/" ++ slug)
    else none

/-- One scraped capability record. -/
structure ScrapedModelCapabilities where
  id : String
  pricingImageGen : Option ℚ
  pricingWebSearch : Option ℚ
  deriving Repr, DecidableEq

/-- The body of the row loop of `extractFromHTML`, for one row-regex match
(the captured slug and the whole row fragment): infer the id, detect each
capability label gated by the absence of negation markers, extract the row's
first price for each, and emit a record only when an id was inferred. -/
def extractFromRow (slug rowHtml : String) : Option ScrapedModelCapabilities :=
  let modelId := inferModelId slug rowHtml
  let hasImageGen := hasCapabilityKeyword "image" "gen" rowHtml && !containsNegation rowHtml
  let hasWebSearch := hasCapabilityKeyword "web" "search" rowHtml && !containsNegation rowHtml
  let imageGenPrice := extractPricingFromRow rowHtml "Image Gen"
  let webSearchPrice := extractPricingFromRow rowHtml "Web Search"
  match modelId with
  | some id =>
    some ⟨id, if hasImageGen then imageGenPrice else none,
      if hasWebSearch then webSearchPrice else none⟩
  | none => none

/-- `extractFromHTML` over the list of row-regex matches found in the page,
in document order: the lexical row-splitting regex phase is modeled by
supplying its matches (slug capture and full row fragment) as input. -/
def extractFromHTML (rows : List (String × String)) : List ScrapedModelCapabilities :=
  rows.filterMap fun r => extractFromRow r.1 r.2

/-- One candidate entry of the structured payload: skip it when its `id` is
falsy; otherwise read each capability signal from the flat field, falling
back to the nested `capabilities` object and then to `null`, through
`parsePricing`.  The TypeScript interface declares `id` a string, and the
embedding records only string ids. -/
def extractModelEntry (v : JSValue) : Option ScrapedModelCapabilities :=
  let idv := v.getField "id"
  if idv.isFalsy then none
  else
    match idv with
    | .str s =>
      let caps := v.getField "capabilities"
      let imageGen := parsePricing
        (jsCoalesce (v.getField "imageGen") (jsCoalesce (caps.getField "imageGen") .null))
      let webSearch := parsePricing
        (jsCoalesce (v.getField "webSearch") (jsCoalesce (caps.getField "webSearch") .null))
      some ⟨s, imageGen, webSearch⟩
    | _ => none

/-- JavaScript `for (const x of v)` iterability: arrays iterate their
elements and strings their characters; anything else raises a `TypeError`,
which the surrounding try swallows. -/
def iterableElems : JSValue → Option (List JSValue)
  | .arr xs => some xs
  | .str s => some (s.data.map fun c => .str (String.mk [c]))
  | _ => none

/-- `extractFromNextData`: navigate `props.pageProps` with optional chaining,
return nothing on a falsy result, locate the models list at `models` or
`data.models` with an empty-array fallback, then build one record per entry
with an identifiable id.  A `TypeError` on a non-iterable list is swallowed
by the source's try, which then returns the (empty) accumulator. -/
def extractFromNextData (nextData : JSValue) : List ScrapedModelCapabilities :=
  let props := (nextData.getField "props").getField "pageProps"
  if props.isFalsy then []
  else
    let m1 := props.getField "models"
    let m2 := if m1.isNullish then (props.getField "data").getField "models" else m1
    let modelsData := if m2.isNullish then JSValue.arr [] else m2
    match iterableElems modelsData with
    | some elems => elems.filterMap extractModelEntry
    | none => []

/-- Outcome of the `JSON.parse` of a matched `__NEXT_DATA__` script body. -/
inductive NextDataParse where
  | parseError (msg : String)
  | parsed (v : JSValue)

/-- The fetched page as the two lexical regex phases of the scraper see it:
whether the `__NEXT_DATA__` script regex matched (and how its contents
parsed), and the model-row regex matches (slug capture, full row fragment)
in document order. -/
structure PageBody where
  nextData : Option NextDataParse
  modelRows : List (String × String)

/-- Outcome of the network fetch boundary: a transport error thrown by
`fetch` itself, a response with a non-success status, or a success whose
body was read. -/
inductive PageFetch where
  | transportError (msg : String)
  | httpError (status : Nat) (statusText : String)
  | ok (body : PageBody)

/-- `ScrapeResult` as returned by the extractor (the wall-clock timestamp is
not modeled). -/
structure ScrapeResult where
  models : List ScrapedModelCapabilities
  errors : List String
  deriving Repr, DecidableEq

/-- `scrapeVercelModelsPage` over a fetch outcome: a transport error or a
non-success status throws inside the try and is caught, producing an empty
model list with the single `Scraping failed` entry; on success, Strategy A
(structured payload) wins when it yields at least one record, a parse error
is recorded and falls through, and Strategy B (row extraction) is the
fallback. -/
def scrapeVercelModelsPage : PageFetch → ScrapeResult
  | .transportError msg => ⟨[], ["Scraping failed: " ++ msg]⟩
  | .httpError status statusText =>
    ⟨[], ["Scraping failed: Failed to fetch models page: " ++ toString status ++ " " ++
      statusText]⟩
  | .ok body =>
    match body.nextData with
    | some (.parsed v) =>
      let extracted := extractFromNextData v
      if extracted.length > 0 then ⟨extracted, []⟩
      else ⟨extractFromHTML body.modelRows, []⟩
    | some (.parseError msg) =>
      ⟨extractFromHTML body.modelRows, ["Failed to parse Next.js data: " ++ msg]⟩
    | none => ⟨extractFromHTML body.modelRows, []⟩

/-- A concrete markup row for the extraction scenario: it links the
`gemini-3-flash` slug and shows an Image Gen price with no Web Search
mention and no negation markers. -/
def geminiRow : String :=
  "<tr><td><a href=\"/ai-gateway/models/gemini-3-flash\">Gemini 3 Flash</a></td><td>Image Gen $0.02</td></tr>"

/-- Three stored models whose capabilities all differ from the static
mapping (each has both prices absent while the mapping prices at least one
capability). -/
def threeChangedModels : List DbModel :=
  [⟨"openai/gpt-5", none, none⟩, ⟨"xai/grok-4", none, none⟩, ⟨"perplexity/sonar", none, none⟩]

/-- A bulk-write boundary that reports two records written and one failed. -/
def partialFailureWrite : List CapabilityUpdate → BulkResult :=
  fun _ => ⟨3, 2, 1, ["perplexity/sonar: write failed"]⟩

/-- A bulk-write boundary that reports every submitted record successful. -/
def allOkWrite : List CapabilityUpdate → BulkResult :=
  fun updates => ⟨updates.length, updates.length, 0, []⟩

/-- A bulk-write boundary that rejects its single record. -/
def oneFailureWrite : List CapabilityUpdate → BulkResult :=
  fun _ => ⟨1, 0, 1, ["openai/gpt-5: write failed"]⟩

/-- Twenty-one stored models, none of which has an entry in the static
mapping; all are unchanged (absent matches the default record). -/
def unmappedModels21 : List DbModel :=
  (List.range 21).map fun i => ⟨"custom/model-" ++ Nat.repr i, none, none⟩

end ModelSync

namespace ModelSync

theorem jsStrictNeq_self (a : Option ℚ) : jsStrictNeq a a = false := by
  cases a <;> simp [jsStrictNeq]

theorem jsStrictNeq_eq_true_iff (a b : Option ℚ) : jsStrictNeq a b = true ↔ a ≠ b := by
  cases a <;> cases b <;> simp [jsStrictNeq]

theorem syncScan_cons (m : DbModel) (rest : List DbModel) :
    syncScan (m :: rest) =
      (if capabilitiesChanged m then
        (⟨m.id, (getModelCapabilities m.id).pricingImageGen,
           (getModelCapabilities m.id).pricingWebSearch⟩ :: (syncScan rest).1,
         (syncScan rest).2.1,
         if (MODEL_CAPABILITIES.lookup m.id).isSome then (syncScan rest).2.2
         else m.id :: (syncScan rest).2.2)
      else
        ((syncScan rest).1, m.id :: (syncScan rest).2.1,
         if (MODEL_CAPABILITIES.lookup m.id).isSome then (syncScan rest).2.2
         else m.id :: (syncScan rest).2.2)) := by
  simp only [syncScan]

theorem storeEffect_unchanged (models : List DbModel) :
    ∀ m ∈ applyStoreEffect models, capabilitiesChanged m = false := by
  intro m hm
  simp only [applyStoreEffect, List.mem_map] at hm
  obtain ⟨x, _, rfl⟩ := hm
  cases h : capabilitiesChanged x with
  | false => simp [h]
  | true => simp [h, capabilitiesChanged, jsStrictNeq_self]

theorem syncScan_unchanged (models : List DbModel)
    (h : ∀ m ∈ models, capabilitiesChanged m = false) :
    (syncScan models).1 = [] ∧ (syncScan models).2.1 = models.map fun m => m.id := by
  induction models with
  | nil => simp [syncScan]
  | cons m rest ih =>
    have hm := h m (by simp)
    have hrest := ih fun x hx => h x (by simp [hx])
    simp [syncScan_cons, hm, hrest.1, hrest.2]

/-- C1: apply is idempotent — starting from the store state the first apply
run wrote (every changed model now holding the desired mapping values), a
second apply run produces no changed record: the bulk-write boundary is
invoked zero times, the report shows zero updated and zero failed, the
updated details are empty, and every model is counted unchanged. -/
theorem sync_apply_idempotent (models : List DbModel)
    (bulkWrite : List CapabilityUpdate → BulkResult) :
    (runApply (applyStoreEffect models) bulkWrite).2 = 0 ∧
    (runApply (applyStoreEffect models) bulkWrite).1.summary.updated = 0 ∧
    (runApply (applyStoreEffect models) bulkWrite).1.summary.failed = 0 ∧
    (runApply (applyStoreEffect models) bulkWrite).1.details.updated = [] ∧
    (runApply (applyStoreEffect models) bulkWrite).1.summary.unchanged = models.length := by
  have h := syncScan_unchanged _ (storeEffect_unchanged models)
  simp only [runApply, h.1, h.2]
  simp [applyStoreEffect]

/-- C2: the preview reconciliation produces exactly one diff entry per input
model preserving input order, and decides willUpdate by absence-aware strict
inequality on each of the two pricing fields, changed being their
disjunction; absent equals only absent and a number equals only the same
number. -/
theorem reconcile_changed_rule (models : List DbModel) :
    ((previewList models).map fun e => e.id) = (models.map fun m => m.id) ∧
    (previewList models).length = models.length ∧
    (∀ m : DbModel,
      ((mkPreviewEntry m).willUpdate = true ↔
        m.pricingImageGen ≠ (getModelCapabilities m.id).pricingImageGen ∨
          m.pricingWebSearch ≠ (getModelCapabilities m.id).pricingWebSearch) ∧
      (mkPreviewEntry m).current = ⟨m.pricingImageGen, m.pricingWebSearch⟩ ∧
      (mkPreviewEntry m).new = getModelCapabilities m.id) ∧
    (∀ a b : Option ℚ, jsStrictNeq a b = true ↔ a ≠ b) := by
  refine ⟨?_, ?_, ?_, jsStrictNeq_eq_true_iff⟩
  · simp [previewList, mkPreviewEntry]
  · simp [previewList]
  · intro m
    refine ⟨?_, rfl, rfl⟩
    simp [mkPreviewEntry, capabilitiesChanged, jsStrictNeq_eq_true_iff]

/-- C3: when no current model's capabilities differ from the static mapping
(in particular when the list is empty), apply never invokes the bulk-write
boundary and reports zero updated and zero failed. -/
theorem apply_no_change_skips_write (models : List DbModel)
    (bulkWrite : List CapabilityUpdate → BulkResult)
    (h : ∀ m ∈ models, capabilitiesChanged m = false) :
    (runApply models bulkWrite).2 = 0 ∧
    (runApply models bulkWrite).1.summary.updated = 0 ∧
    (runApply models bulkWrite).1.summary.failed = 0 := by
  have hs := syncScan_unchanged models h
  simp [runApply, hs.1]

theorem apply_no_change_skips_write_witness :
    (runApply [] allOkWrite).2 = 0 ∧
    (runApply [] allOkWrite).1.summary.updated = 0 ∧
    (runApply [] allOkWrite).1.summary.failed = 0 :=
  apply_no_change_skips_write [] allOkWrite (by simp)

/-- C4: when the bulk write reports a partial failure, the report's updated
count is the number of successes, the failed count the number of failures,
the per-record error descriptions are carried into the details, and the run
still succeeds (a success report is returned, with the write boundary
invoked exactly once). -/
theorem apply_partial_failure_reported (models : List DbModel)
    (bulkWrite : List CapabilityUpdate → BulkResult)
    (h : (syncScan models).1.length > 0) :
    (runApply models bulkWrite).1.summary.updated =
      (bulkWrite (syncScan models).1).successful ∧
    (runApply models bulkWrite).1.summary.failed =
      (bulkWrite (syncScan models).1).failed ∧
    (runApply models bulkWrite).1.details.errors =
      (bulkWrite (syncScan models).1).errors ∧
    (runApply models bulkWrite).1.success = true ∧
    (runApply models bulkWrite).2 = 1 := by
  simp [runApply, h]

theorem apply_partial_failure_reported_witness :
    (runApply threeChangedModels partialFailureWrite).1.summary.updated = 2 ∧
    (runApply threeChangedModels partialFailureWrite).1.summary.failed = 1 ∧
    (runApply threeChangedModels partialFailureWrite).1.details.errors =
      ["perplexity/sonar: write failed"] ∧
    (runApply threeChangedModels partialFailureWrite).1.success = true ∧
    (runApply threeChangedModels partialFailureWrite).2 = 1 := by
  have h := apply_partial_failure_reported threeChangedModels partialFailureWrite (by decide)
  exact ⟨h.1, h.2.1, h.2.2.1, h.2.2.2.1, h.2.2.2.2⟩

/-- C5 counterexample: one changed model whose single bulk-write record is
reported failed still appears in the report's updated details — the updated
sequence is not restricted to records whose write succeeded. -/
theorem updated_details_include_failed_write :
    (runApply [⟨"openai/gpt-5", none, none⟩] oneFailureWrite).1.summary.updated = 0 ∧
    (runApply [⟨"openai/gpt-5", none, none⟩] oneFailureWrite).1.summary.failed = 1 ∧
    (runApply [⟨"openai/gpt-5", none, none⟩] oneFailureWrite).1.details.updated ≠ [] := by
  refine ⟨rfl, rfl, ?_⟩
  decide

/-- C5 amended: in every apply run the report's updated details are exactly
the changed models submitted to the bulk write, in input order and
regardless of per-record write outcome; in every preview run the entries
flagged willUpdate, projected to their desired values, are exactly the
desired side of the changed diffs. -/
theorem updated_details_exactly_changed (models : List DbModel)
    (bulkWrite : List CapabilityUpdate → BulkResult) :
    (runApply models bulkWrite).1.details.updated = (syncScan models).1 ∧
    (((previewList models).filter fun e => e.willUpdate).map fun e => (e.id, e.new)) =
      ((syncScan models).1.map fun u =>
        (u.id, (⟨u.pricingImageGen, u.pricingWebSearch⟩ : ModelCapabilities))) := by
  refine ⟨rfl, ?_⟩
  induction models with
  | nil => simp [previewList, syncScan]
  | cons m rest ih =>
    by_cases h : capabilitiesChanged m
    · simp [previewList, syncScan_cons, h, mkPreviewEntry] at ih ⊢
      exact ih
    · simp [previewList, syncScan_cons, h, mkPreviewEntry] at ih ⊢
      exact ih

theorem preview_inMapping_count (models : List DbModel) :
    ((models.map mkPreviewEntry).filter fun e => e.inMapping).length =
      (models.filter fun m => (MODEL_CAPABILITIES.lookup m.id).isSome).length := by
  induction models with
  | nil => rfl
  | cons m rest ih =>
    by_cases h : (MODEL_CAPABILITIES.lookup m.id).isSome <;>
      simp [mkPreviewEntry, h, ih]

/-- C9: the two modes fill summary.inMapping from different domains — apply
reports the total entry count of the static mapping (a constant, 20,
independent of the current models), while preview counts the current models
that have an explicit mapping entry. -/
theorem inMapping_mode_domains (models : List DbModel)
    (bulkWrite : List CapabilityUpdate → BulkResult) :
    (runApply models bulkWrite).1.summary.inMapping = MODEL_CAPABILITIES.length ∧
    MODEL_CAPABILITIES.length = 20 ∧
    (previewRun models).summary.inMapping =
      (models.filter fun m => (MODEL_CAPABILITIES.lookup m.id).isSome).length := by
  refine ⟨rfl, rfl, ?_⟩
  simp only [previewRun, previewList]
  exact preview_inMapping_count models

theorem syncScan_notInMapping (models : List DbModel) :
    (syncScan models).2.2 =
      (models.filter fun m => !(MODEL_CAPABILITIES.lookup m.id).isSome).map fun m => m.id := by
  induction models with
  | nil => rfl
  | cons m rest ih =>
    by_cases hc : capabilitiesChanged m <;>
      cases hl : MODEL_CAPABILITIES.lookup m.id <;>
        simp [syncScan_cons, hc, hl, ih, List.filter_cons]

/-- C10: the apply report's notInMapping details are the first 20 ids, in
input order, of current models lacking an explicit static-mapping entry,
while the summary counts all of them; with more than 20 such models the
detail list is strictly shorter than the reported count. -/
theorem notInMapping_truncation (models : List DbModel)
    (bulkWrite : List CapabilityUpdate → BulkResult) :
    (runApply models bulkWrite).1.details.notInMapping = (syncScan models).2.2.take 20 ∧
    (runApply models bulkWrite).1.summary.notInMapping = (syncScan models).2.2.length ∧
    (syncScan models).2.2 =
      ((models.filter fun m => !(MODEL_CAPABILITIES.lookup m.id).isSome).map fun m => m.id) ∧
    ((syncScan models).2.2.length > 20 →
      (runApply models bulkWrite).1.details.notInMapping.length <
        (runApply models bulkWrite).1.summary.notInMapping) := by
  refine ⟨rfl, rfl, syncScan_notInMapping models, ?_⟩
  intro h
  simp only [runApply, List.length_take]
  omega

theorem notInMapping_truncation_witness :
    (runApply unmappedModels21 allOkWrite).1.details.notInMapping.length <
      (runApply unmappedModels21 allOkWrite).1.summary.notInMapping :=
  (notInMapping_truncation unmappedModels21 allOkWrite).2.2.2 (by decide)

/-- C6: parsePricing is total by construction and satisfies the contract:
null and undefined map to absent, any number (zero, negative or fractional
included) passes through unchanged, the sample currency strings parse to
their numeric values, an unparseable string is absent, and every other
value type is absent. -/
theorem parsePricing_contract :
    parsePricing .null = none ∧
    parsePricing .undefined = none ∧
    parsePricing (.num 0) = some 0 ∧
    (∀ q : ℚ, parsePricing (.num q) = some q) ∧
    parsePricing (.str "$0.02") = some (2/100) ∧
    parsePricing (.str "  $1,234.5 ") = some (12345/10) ∧
    parsePricing (.str "abc") = none ∧
    (∀ b : Bool, parsePricing (.bool b) = none) ∧
    (∀ elems, parsePricing (.arr elems) = none) ∧
    (∀ fields, parsePricing (.obj fields) = none) := by
  refine ⟨rfl, rfl, rfl, fun q => rfl, ?_, ?_, ?_,
    fun b => rfl, fun elems => rfl, fun fields => rfl⟩
  · simp +decide [parsePricing, stripCurrency, parseFloatJS, parseDecimal, takeDigits,
      digitsToNat, applyExponent, isJsWhitespace]
    norm_num
  · simp +decide [parsePricing, stripCurrency, parseFloatJS, parseDecimal, takeDigits,
      digitsToNat, applyExponent, isJsWhitespace]
    norm_num
  · simp +decide [parsePricing, stripCurrency, parseFloatJS, parseDecimal, takeDigits,
      digitsToNat, applyExponent, isJsWhitespace]

/-- C7: the scraper returns a ScrapeResult for every fetch outcome (it is a
total function of the outcome), and on a transport error or a non-success
HTTP status the result carries an empty model list and exactly one error
entry describing the failure. -/
theorem scrape_failure_contract :
    (∀ msg, scrapeVercelModelsPage (.transportError msg) =
      ⟨[], ["Scraping failed: " ++ msg]⟩) ∧
    (∀ msg, (scrapeVercelModelsPage (.transportError msg)).models = [] ∧
      (scrapeVercelModelsPage (.transportError msg)).errors.length = 1) ∧
    (∀ status statusText, scrapeVercelModelsPage (.httpError status statusText) =
      ⟨[], ["Scraping failed: Failed to fetch models page: " ++ toString status ++ " " ++
        statusText]⟩) ∧
    (∀ status statusText,
      (scrapeVercelModelsPage (.httpError status statusText)).models = [] ∧
      (scrapeVercelModelsPage (.httpError status statusText)).errors.length = 1) :=
  ⟨fun _ => rfl, fun _ => ⟨rfl, rfl⟩, fun _ _ => rfl, fun _ _ => ⟨rfl, rfl⟩⟩

/-- C8: a markup row linking the gemini-3-flash slug with the text
"Image Gen $0.02" and no Web Search mention yields the record with id
google/gemini-3-flash (provider inferred from the gemini keyword), image-gen
price 0.02 (the row's first currency-formatted number), and web-search
absent. -/
theorem html_row_scenario :
    extractFromRow "gemini-3-flash" geminiRow =
      some ⟨"google/gemini-3-flash", some (2/100), none⟩ ∧
    extractFromHTML [("gemini-3-flash", geminiRow)] =
      [⟨"google/gemini-3-flash", some (2/100), none⟩] ∧
    inferModelId "gemini-3-flash" geminiRow = some "google/gemini-3-flash" ∧
    extractPricingFromRow geminiRow "Image Gen" = some (2/100) ∧
    hasCapabilityKeyword "web" "search" geminiRow = false := by
  have h1 : inferModelId "gemini-3-flash" geminiRow = some "google/gemini-3-flash" := by
    decide
  have h2 : findPriceCapture geminiRow.data = some ['0', '.', '0', '2'] := by decide
  have h3 : hasCapabilityKeyword "image" "gen" geminiRow = true := by decide
  have h4 : hasCapabilityKeyword "web" "search" geminiRow = false := by decide
  have h5 : containsNegation geminiRow = false := by decide
  have h6 : parseFloatJS (String.mk ['0', '.', '0', '2']) = some (2/100) := by
    simp +decide [parseFloatJS, parseDecimal, takeDigits, digitsToNat, applyExponent,
      isJsWhitespace]
    norm_num
  have h7 : extractPricingFromRow geminiRow "Image Gen" = some (2/100) := by
    simp [extractPricingFromRow, h2, h6]
  have h8 : extractFromRow "gemini-3-flash" geminiRow =
      some ⟨"google/gemini-3-flash", some (2/100), none⟩ := by
    simp [extractFromRow, extractPricingFromRow, h1, h2, h3, h4, h5, h6]
  exact ⟨h8, by simp [extractFromHTML, h8], h1, h7, h4⟩

end ModelSync
